import Mathlib

/-!
Verification of the request-queue / retry / deduplication core of the
Image-Alt-Text-Generator browser extension.

The definitions below are a shallow embedding of the JavaScript source:
  - `simpleHash`, `getImageHash`, `isProcessed`, `isInFlight`, `markInFlight`,
    `clearInFlight`, `markProcessed` embed `ProcessedImageTracker`
    (content/stateManager.js).
  - `processSingleImage` embeds the per-image orchestration
    (content/imageProcessor.js); the outcomes of the two awaited
    collaborators (conversion and the queued API call) are passed in as
    explicit parameters, since the page/network environment decides them.
  - `getBase64Size` / `isWithinSizeLimit` and `convertImageToBase64` embed
    the image converter (utils/imageConverter.js).
  - `sendImageToAPI` embeds the retry loop of the API client
    (utils/apiClient.js); each attempt outcome is a parameter.
  - `queueStep` / `queueRun` embed the `RequestQueue` class as a small-step
    event-loop semantics: every synchronous segment of `add` / `process`
    between two await points runs atomically, and the scheduler commands
    (task submission, task settlement, sleep-timer expiry) drive the steps.
  - `handleMessage` embeds the background script message handler
    (background.js).
-/

/-! ## State manager (content/stateManager.js) -/

/-- JavaScript ToInt32: wrap an integer into the signed 32-bit range,
as performed by the `hash & hash` step and by `<<` in `simpleHash`. -/
def toInt32 (n : Int) : Int :=
  (n + 2147483648) % 4294967296 - 2147483648

/-- One iteration of the loop in `simpleHash`:
`hash = ((hash << 5) - hash) + char; hash = hash & hash`.
`hash << 5` wraps its result to 32 bits; the subtraction and the addition of
the character code are exact (the intermediate values stay far below 2^53);
the final `& hash` wraps to 32 bits again. -/
def hashStep (h : Int) (c : Char) : Int :=
  toInt32 (toInt32 (h * 32) - h + (c.toNat : Int))

/-- The 32-bit accumulator value computed by `simpleHash` before the final
base-36 rendering.  Character codes are code points, which agree with JS
UTF-16 units on the basic multilingual plane (all URLs in play). -/
def simpleHashVal (str : String) : Int :=
  str.toList.foldl hashStep 0

/-- Digit characters used by JavaScript `Number.prototype.toString(36)`. -/
def base36DigitChar (n : Nat) : Char :=
  if n < 10 then Char.ofNat (48 + n) else Char.ofNat (87 + n)

/-- Base-36 digits of a natural number, most significant first (fuel-based
recursion so that the kernel can evaluate it; `fuel = n` always suffices
because the value shrinks by a factor of 36 each round). -/
def natToBase36Aux : Nat → Nat → List Char
  | 0, n => [base36DigitChar (n % 36)]
  | fuel + 1, n =>
    if n < 36 then [base36DigitChar n]
    else natToBase36Aux fuel (n / 36) ++ [base36DigitChar (n % 36)]

def natToBase36 (n : Nat) : List Char :=
  natToBase36Aux n n

/-- JavaScript `Number.prototype.toString(36)` on a 32-bit integer value. -/
def jsToString36 (i : Int) : String :=
  if i < 0 then String.mk ('-' :: natToBase36 i.natAbs)
  else String.mk (natToBase36 i.toNat)

/-- `ProcessedImageTracker.simpleHash`. -/
def simpleHash (str : String) : String :=
  jsToString36 (simpleHashVal str)

/-- A candidate image: DOM element identity plus the fields the core reads
and writes (`src`, natural dimensions, `alt`, `title`). -/
structure Img where
  elemId : Nat
  src : String
  naturalWidth : Nat
  naturalHeight : Nat
  alt : String
  title : String
deriving DecidableEq

/-- `ProcessedImageTracker.getImageHash`: hash of
`` `${img.src}_${img.naturalWidth}x${img.naturalHeight}` ``. -/
def getImageHash (img : Img) : String :=
  simpleHash (img.src ++ "_" ++ toString img.naturalWidth ++ "x" ++ toString img.naturalHeight)

/-- Tracker state: the element-keyed WeakMap (modelled as an association
list keyed by element identity), the hash Set, and the in-flight Set. -/
structure Tracker where
  processedImages : List (Nat × String × Nat)
  processedHashes : List String
  inFlight : List String
deriving DecidableEq

def emptyTracker : Tracker := ⟨[], [], []⟩

/-- `Set.add`: a JS Set never holds duplicates. -/
def setInsert (l : List String) (x : String) : List String :=
  if x ∈ l then l else l ++ [x]

/-- `Set.delete`: after deletion the element is no longer a member. -/
def setDelete (l : List String) (x : String) : List String :=
  l.filter (fun y => y != x)

/-- `WeakMap.set`: replace the entry for the key or append a new one. -/
def weakMapSet (m : List (Nat × String × Nat)) (k : Nat) (desc : String) (ts : Nat) :
    List (Nat × String × Nat) :=
  if m.any (fun e => e.1 == k) then
    m.map (fun e => if e.1 = k then (k, desc, ts) else e)
  else m ++ [(k, desc, ts)]

/-- `ProcessedImageTracker.isProcessed`: WeakMap hit first, then hash Set. -/
def isProcessed (t : Tracker) (img : Img) : Bool :=
  t.processedImages.any (fun e => e.1 == img.elemId)
    || decide (getImageHash img ∈ t.processedHashes)

/-- `ProcessedImageTracker.isInFlight`. -/
def isInFlight (t : Tracker) (img : Img) : Bool :=
  decide (getImageHash img ∈ t.inFlight)

/-- `ProcessedImageTracker.markInFlight`. -/
def markInFlight (t : Tracker) (img : Img) : Tracker :=
  { t with inFlight := setInsert t.inFlight (getImageHash img) }

/-- `ProcessedImageTracker.clearInFlight`. -/
def clearInFlight (t : Tracker) (img : Img) : Tracker :=
  { t with inFlight := setDelete t.inFlight (getImageHash img) }

/-- `ProcessedImageTracker.markProcessed`: store in the WeakMap (with the
`Date.now()` timestamp passed in as `now`), add the hash, clear in-flight. -/
def markProcessed (t : Tracker) (img : Img) (description : String) (now : Nat) : Tracker :=
  clearInFlight
    { t with
      processedImages := weakMapSet t.processedImages img.elemId description now,
      processedHashes := setInsert t.processedHashes (getImageHash img) }
    img

/-! ## Payload size limit (utils/imageConverter.js) -/

/-- Number of `=` characters, i.e. `(base64.match(/=/g) || []).length`. -/
def countEquals (b : String) : Nat :=
  (b.toList.filter (fun c => c == '=')).length

/-- `base64.length - base64.indexOf(',') - 1`; when there is no comma,
`indexOf` returns `-1` and the expression equals the full length. -/
def base64DataLength (b : String) : Nat :=
  match b.toList.findIdx? (fun c => c == ',') with
  | some i => b.toList.length - i - 1
  | none => b.toList.length

/-- `getBase64Size`: `Math.ceil((base64Length * 3) / 4) - padding`.  The
float division and ceiling are exact for all lengths below 2^51, so the
integer ceiling `(3n + 3) / 4` is the same value. -/
def getBase64Size (b : String) : Int :=
  (((base64DataLength b * 3 + 3) / 4 : Nat) : Int) - (countEquals b : Int)

/-- `isWithinSizeLimit`: `sizeBytes / (1024*1024) > maxSizeMB` compares
exactly in binary floating point (division by a power of two is exact), so
the comparison is equivalent to the integer comparison below. -/
def isWithinSizeLimit (b : String) (maxSizeMB : Nat) : Bool :=
  decide (getBase64Size b ≤ (maxSizeMB : Int) * 1024 * 1024)

/-! ## Per-image orchestration (content/imageProcessor.js) -/

/-- Outcome of an awaited collaborator call: the resolved string value or
the message of the thrown error. -/
inductive JsResult where
  | ok (value : String)
  | err (msg : String)
deriving DecidableEq

/-- How one `processSingleImage` call ended. -/
inductive ProcOutcome where
  | skippedProcessed
  | skippedInFlight
  | tooLarge
  | success (description : String)
  | failed (msg : String)
deriving DecidableEq

/-- Result of a `processSingleImage` call: final tracker state, the (possibly
written-to) image, the terminal outcome, and whether `processImage` (the
queue submission) was invoked. -/
structure ProcResult where
  tracker : Tracker
  img : Img
  outcome : ProcOutcome
  dispatched : Bool
deriving DecidableEq

/-- `processSingleImage(img)`.  `conv` is the outcome of
`convertImageToBase64(img)`, `api` the outcome of `processImage(base64)`
(the queued API round trip), `now` the `Date.now()` timestamp used by
`markProcessed`.  Every catch path clears the in-flight mark. -/
def processSingleImage (t : Tracker) (img : Img) (conv api : JsResult) (now : Nat) :
    ProcResult :=
  if isProcessed t img then ⟨t, img, .skippedProcessed, false⟩
  else if isInFlight t img then ⟨t, img, .skippedInFlight, false⟩
  else
    let t1 := markInFlight t img
    match conv with
    | .err m => ⟨clearInFlight t1 img, img, .failed m, false⟩
    | .ok base64 =>
      if isWithinSizeLimit base64 5 then
        match api with
        | .err m => ⟨clearInFlight t1 img, img, .failed m, true⟩
        | .ok description =>
          let img2 : Img := { img with alt := description, title := description }
          ⟨markProcessed t1 img2 description now, img2, .success description, true⟩
      else ⟨clearInFlight t1 img, img, .tooLarge, false⟩

/-- Outcomes on which `processSingleImage` has terminally handled the image
(as opposed to short-circuiting on the dedup checks). -/
def isTerminalOutcome : ProcOutcome → Bool
  | .success _ => true
  | .tooLarge => true
  | .failed _ => true
  | .skippedProcessed => false
  | .skippedInFlight => false

/-- A payload of 7,000,000 base64 characters, computing to 5,250,000 bytes,
just above the 5 MB ceiling of 5,242,880 bytes. -/
def bigBase64 : String := String.mk (List.replicate 7000000 'a')

/-! ## Image converter fallback chain (utils/imageConverter.js) -/

/-- The three fallback strategies of `convertImageToBase64`, in source
order. -/
inductive StratTag where
  | canvasStrat
  | fetchStrat
  | backgroundStrat
deriving DecidableEq

/-- Result of one `convertImageToBase64` call: the value or error, plus the
list of strategies that were attempted, in the order they ran. -/
structure ConvertOutput where
  result : JsResult
  tried : List StratTag
deriving DecidableEq

/-- `convertImageToBase64(img)`.  The outcomes of the three strategies
(canvas rendering, direct fetch, background proxy) are parameters, since the
page's cross-origin environment decides them; the chain consults them in the
source's strict order and stops at the first success. -/
def convertImageToBase64 (img : Img) (canvasR fetchR bgR : JsResult) : ConvertOutput :=
  if img.src = "" then ⟨.err "Invalid image element", []⟩
  else if img.naturalWidth = 0 ∨ img.naturalHeight = 0 then
    ⟨.err "Image not loaded or broken", []⟩
  else if "data:".toList.isPrefixOf img.src.toList then ⟨.ok img.src, []⟩
  else
    match canvasR with
    | .ok b => ⟨.ok b, [.canvasStrat]⟩
    | .err _ =>
      match fetchR with
      | .ok b => ⟨.ok b, [.canvasStrat, .fetchStrat]⟩
      | .err _ =>
        match bgR with
        | .ok b => ⟨.ok b, [.canvasStrat, .fetchStrat, .backgroundStrat]⟩
        | .err m =>
          ⟨.err ("Image conversion failed: " ++ m), [.canvasStrat, .fetchStrat, .backgroundStrat]⟩

/-! ## Background message handler (background.js) -/

/-- An incoming runtime message: its `type` string and optional `url`. -/
structure BgMsg where
  type : String
  url : Option String
deriving DecidableEq

/-- The response object `handleMessage` resolves with: the `success` flag,
the optional `base64` payload, the optional `error` message, and whether a
`stats` object is attached. -/
structure BgResponse where
  success : Bool
  base64 : Option String
  error : Option String
  hasStats : Bool
deriving DecidableEq

/-- JavaScript `!message.url`: true for a missing or empty url. -/
def jsFalsyUrl : Option String → Bool
  | none => true
  | some s => decide (s = "")

/-- `handleMessage(message)`.  `fetchRes` is the outcome of the privileged
`fetchImageAsBase64(url)` call; every thrown error is caught and turned into
a `{success: false, error}` response. -/
def handleMessage (msg : BgMsg) (fetchRes : JsResult) : BgResponse :=
  if msg.type = "CONVERT_IMAGE" then
    if jsFalsyUrl msg.url then ⟨false, none, some "No URL provided", false⟩
    else
      match fetchRes with
      | .ok b64 => ⟨true, some b64, none, false⟩
      | .err e => ⟨false, none, some e, false⟩
  else if msg.type = "GET_STATS" then ⟨true, none, none, true⟩
  else ⟨false, none, some ("Unknown message type: " ++ msg.type), false⟩

/-! ## API client retry loop (utils/apiClient.js, `sendImageToAPI`) -/

/-- Terminal outcome of a `sendImageToAPI` call. -/
inductive ApiOutcome where
  | success (description : String)
  | failure (msg : String)
deriving DecidableEq

/-- One `sendImageToAPI` run: the outcome, the number of attempts the loop
actually consumed, and the list of backoff sleeps (in milliseconds) that
were awaited, in order. -/
structure ApiRun where
  outcome : ApiOutcome
  attemptsUsed : Nat
  backoffs : List Nat
deriving DecidableEq

/-- JavaScript `String.prototype.includes`, by direct scan. -/
def hasSubstringAux (pat : List Char) : List Char → Bool
  | [] => pat.isPrefixOf ([] : List Char)
  | c :: rest => pat.isPrefixOf (c :: rest) || hasSubstringAux pat rest

def hasSubstring (s pat : String) : Bool :=
  hasSubstringAux pat.toList s.toList

/-- The non-retryable classification of `sendImageToAPI`:
`error.message.includes('400') || error.message.includes('Invalid')`. -/
def isNonRetryableMsg (m : String) : Bool :=
  hasSubstring m "400" || hasSubstring m "Invalid"

/-- The `for (attempt = 1; attempt <= maxRetries; attempt++)` loop of
`sendImageToAPI`.  `try_ attempt` is the outcome of the attempt's body
(blob conversion, FormData build, `sendWithTimeout`); `fuel` counts the
remaining loop iterations (`fuel = maxRetries - attempt + 1` at every call,
so the fuel-exhausted base case is never reached for `maxRetries ≥ 1`);
`lastErr` mirrors the `lastError` variable and `acc` accumulates the
executed `sleep(Math.pow(2, attempt - 1) * 1000)` backoffs. -/
def sendGo (try_ : Nat → JsResult) (maxRetries : Nat) : Nat → Nat → String → List Nat → ApiRun
  | 0, _attempt, lastErr, acc =>
    ⟨.failure ("API failed after " ++ toString maxRetries ++ " attempts: " ++ lastErr),
      maxRetries, acc⟩
  | fuel + 1, attempt, _lastErr, acc =>
    match try_ attempt with
    | .ok d => ⟨.success d, attempt, acc⟩
    | .err m =>
      if isNonRetryableMsg m then ⟨.failure m, attempt, acc⟩
      else if attempt < maxRetries then
        sendGo try_ maxRetries fuel (attempt + 1) m (acc ++ [2 ^ (attempt - 1) * 1000])
      else
        ⟨.failure ("API failed after " ++ toString maxRetries ++ " attempts: " ++ m),
          attempt, acc⟩

/-- `sendImageToAPI(base64, maxRetries)`. -/
def sendImageToAPI (try_ : Nat → JsResult) (maxRetries : Nat) : ApiRun :=
  sendGo try_ maxRetries maxRetries 1 "" []

/-! ## Request queue (utils/apiClient.js, class `RequestQueue`)

The queue runs on the single-threaded JS event loop: every synchronous
segment of `add` / `process` between two `await` points executes atomically.
The semantics below makes those segments the steps of a transition system
driven by scheduler commands:

  - `QCmd.add tid t`: a caller invokes `add(task)` at time `t` (pushes the
    task, bumps `total`, and runs the synchronous head of `process()`,
    which dispatches the front task when a concurrency slot is free);
  - `QCmd.complete tid ok t`: the awaited `task()` of a running dispatch
    settles at time `t` (the `try/catch/finally` body runs: counters,
    `active--`, and either the `sleep(delayMs)` pacing timer is started
    when work remains queued, or `process()` re-runs at once on the empty
    queue and returns);
  - `QCmd.wake i t`: the `i`-th pending pacing timer fires at time `t`
    (legal only once its due time has passed), running the trailing
    `this.process()` call, which dispatches the front task if a slot is
    free.

Commands carry monotonically non-decreasing wall-clock times.  Each step
emits the externally visible events (submission, dispatch start, settlement,
pacing-timer start) from which the ordering and timing claims are stated. -/

/-- A `sleep(delayMs)` continuation pending inside a `finally` block:
the completion instant that started it and the instant it may fire. -/
structure SleepCont where
  completedAt : Nat
  wakeTime : Nat
deriving DecidableEq

/-- Counters of `this.stats`. -/
structure QStats where
  total : Nat
  success : Nat
  failed : Nat
deriving DecidableEq

/-- The queue state: constructor configuration, `this.queue` (pending task
ids, front first), `this.active`, `this.stats`, plus the dispatched tasks
currently awaited (`running`), the pending pacing timers (`sleeping`), and
the last command time (`now`). -/
structure QState where
  concurrency : Nat
  delayMs : Nat
  queue : List Nat
  active : Nat
  stats : QStats
  running : List Nat
  sleeping : List SleepCont
  now : Nat
deriving DecidableEq

/-- `new RequestQueue(concurrency, delayMs)`. -/
def mkQueue (concurrency delayMs : Nat) : QState :=
  ⟨concurrency, delayMs, [], 0, ⟨0, 0, 0⟩, [], [], 0⟩

/-- What caused a dispatch: the synchronous `process()` run inside `add`,
or the `process()` run by a pacing timer started at `completedAt`. -/
inductive Trigger where
  | fromAdd
  | fromWake (completedAt : Nat)
deriving DecidableEq

/-- Externally visible events of a queue run. -/
inductive QEvent where
  | added (tid t : Nat)
  | dispatched (tid t : Nat) (trig : Trigger)
  | completed (tid : Nat) (ok : Bool) (t : Nat)
  | paced (tc due : Nat)
deriving DecidableEq

/-- Scheduler commands driving the queue. -/
inductive QCmd where
  | add (tid t : Nat)
  | complete (tid : Nat) (ok : Bool) (t : Nat)
  | wake (i t : Nat)
deriving DecidableEq

/-- The synchronous prefix of `process()`: return unless a concurrency slot
is free and work is queued; otherwise `active++`, shift the head task and
start executing it (the dispatch start). -/
def tryDispatch (s : QState) (t : Nat) (trig : Trigger) : QState × List QEvent :=
  if s.active < s.concurrency then
    match s.queue with
    | [] => (s, [])
    | h :: rest =>
      ({ s with queue := rest, active := s.active + 1, running := s.running ++ [h] },
        [.dispatched h t trig])
  else (s, [])

/-- One step of the queue transition system; `none` marks an impossible
command (settling a task that is not running, firing an absent or undue
timer, or going back in time). -/
def queueStep (s : QState) : QCmd → Option (QState × List QEvent)
  | .add tid t =>
    if t < s.now then none
    else
      let s1 : QState :=
        { s with
          queue := s.queue ++ [tid],
          stats := { s.stats with total := s.stats.total + 1 },
          now := t }
      let d := tryDispatch s1 t .fromAdd
      some (d.1, .added tid t :: d.2)
  | .complete tid ok t =>
    if t < s.now then none
    else if tid ∈ s.running then
      let s1 : QState :=
        { s with
          running := s.running.erase tid,
          active := s.active - 1,
          stats :=
            if ok then { s.stats with success := s.stats.success + 1 }
            else { s.stats with failed := s.stats.failed + 1 },
          now := t }
      if s1.queue.isEmpty then
        some (s1, [.completed tid ok t])
      else
        some ({ s1 with sleeping := s1.sleeping ++ [⟨t, t + s.delayMs⟩] },
          [.completed tid ok t, .paced t (t + s.delayMs)])
    else none
  | .wake i t =>
    if t < s.now then none
    else
      match s.sleeping[i]? with
      | none => none
      | some c =>
        if t < c.wakeTime then none
        else
          let s1 : QState :=
            { s with
              sleeping := s.sleeping.eraseIdx i,
              now := t }
          let d := tryDispatch s1 t (.fromWake c.completedAt)
          some (d.1, d.2)

/-- Run a command list from a state, collecting the event log. -/
def queueRun (s : QState) : List QCmd → Option (QState × List QEvent)
  | [] => some (s, [])
  | c :: cs =>
    match queueStep s c with
    | none => none
    | some (s1, evs) =>
      match queueRun s1 cs with
      | none => none
      | some (s2, evs2) => some (s2, evs ++ evs2)

/-- `getStats()`: the three counters plus the live `queued` and `active`
figures. -/
structure QStatsView where
  total : Nat
  success : Nat
  failed : Nat
  queued : Nat
  activeCount : Nat
deriving DecidableEq

def getStats (s : QState) : QStatsView :=
  ⟨s.stats.total, s.stats.success, s.stats.failed, s.queue.length, s.active⟩

/-- Task ids of submissions, in log order. -/
def addedIds (evs : List QEvent) : List Nat :=
  evs.filterMap fun e =>
    match e with
    | .added tid _ => some tid
    | _ => none

/-- Task ids of dispatch starts, in log order. -/
def dispatchedIds (evs : List QEvent) : List Nat :=
  evs.filterMap fun e =>
    match e with
    | .dispatched tid _ _ => some tid
    | _ => none

/-- Settlement outcomes, in log order. -/
def completionOks (evs : List QEvent) : List Bool :=
  evs.filterMap fun e =>
    match e with
    | .completed _ ok _ => some ok
    | _ => none

/-- The pacing property as claimed of the queue (default 500 ms delay):
after a settlement that leaves work queued (a `paced` event), no pending
task begins executing (`dispatched` event later in the log) until 500 ms
past that settlement. -/
def pacingClaim : Prop :=
  ∀ (concurrency : Nat) (cmds : List QCmd) (s2 : QState) (evs : List QEvent),
    queueRun (mkQueue concurrency 500) cmds = some (s2, evs) →
    ∀ (i j tc due tid t : Nat) (trig : Trigger), i < j →
      evs[i]? = some (QEvent.paced tc due) →
      evs[j]? = some (QEvent.dispatched tid t trig) →
      tc + 500 ≤ t

/-- Every pending pacing timer is due exactly `delayMs` after the
settlement that created it. -/
def sleepTimersConsistent (s : QState) : Prop :=
  ∀ c ∈ s.sleeping, c.wakeTime = c.completedAt + s.delayMs

/-! ## Theorems -/

/-! ## Helper lemmas about the set operations -/

theorem mem_setInsert_self (l : List String) (x : String) : x ∈ setInsert l x := by
  unfold setInsert
  split
  · assumption
  · simp

theorem not_mem_setDelete_self (l : List String) (x : String) : x ∉ setDelete l x := by
  unfold setDelete
  intro h
  have := List.of_mem_filter h
  simp at this

/-- Rewriting the hash only depends on `src` and the natural dimensions. -/
theorem getImageHash_write (img : Img) (d : String) :
    getImageHash { img with alt := d, title := d } = getImageHash img := rfl

theorem getImageHash_congr (a b : Img) (hsrc : a.src = b.src)
    (hw : a.naturalWidth = b.naturalWidth) (hh : a.naturalHeight = b.naturalHeight) :
    getImageHash a = getImageHash b := by
  unfold getImageHash
  rw [hsrc, hw, hh]

/-! ## Claims about the tracker and the per-image orchestration -/

/-- Claim C1: once `markProcessed(image, description)` has succeeded, any
later `processSingleImage` call on an image with the same locator and
natural dimensions short-circuits: the identity hash of the two images is
identical, `isProcessed` returns true, and the call returns with the
tracker untouched, the image unwritten, and no queue submission (before
`markInFlight`, conversion, or dispatch). -/
theorem markProcessed_idempotent_skip
    (t : Tracker) (img : Img) (description : String) (now : Nat)
    (img2 : Img) (conv api : JsResult) (now2 : Nat)
    (hsrc : img2.src = img.src) (hw : img2.naturalWidth = img.naturalWidth)
    (hh : img2.naturalHeight = img.naturalHeight) :
    getImageHash img2 = getImageHash img ∧
    isProcessed (markProcessed t img description now) img2 = true ∧
    processSingleImage (markProcessed t img description now) img2 conv api now2 =
      ⟨markProcessed t img description now, img2, .skippedProcessed, false⟩ := by
  have hhash : getImageHash img2 = getImageHash img :=
    getImageHash_congr img2 img hsrc hw hh
  have hproc : isProcessed (markProcessed t img description now) img2 = true := by
    unfold isProcessed markProcessed clearInFlight
    simp only [hhash]
    have := mem_setInsert_self t.processedHashes (getImageHash img)
    simp [this]
  refine ⟨hhash, hproc, ?_⟩
  unfold processSingleImage
  simp [hproc]

/-- Witness for C1 at a concrete tracker and pair of images sharing the
same locator and dimensions but different element identities. -/
theorem markProcessed_idempotent_skip_witness :
    isProcessed (markProcessed emptyTracker ⟨0, "u", 100, 50, "", ""⟩ "d" 3)
      ⟨1, "u", 100, 50, "", ""⟩ = true :=
  (markProcessed_idempotent_skip emptyTracker ⟨0, "u", 100, 50, "", ""⟩ "d" 3
    ⟨1, "u", 100, 50, "", ""⟩ (.ok "b") (.ok "d") 4 rfl rfl rfl).2.1

/-- Claim C2: the in-flight set is always compensated.  `markProcessed`
inserts the identity hash into the processed set and removes it from the
in-flight set; and every terminal path of `processSingleImage` (success,
oversize skip, or a thrown conversion/description error) leaves the
identity out of the in-flight set. -/
theorem inFlight_always_compensated :
    (∀ (t : Tracker) (img : Img) (d : String) (now : Nat),
      getImageHash img ∈ (markProcessed t img d now).processedHashes ∧
      getImageHash img ∉ (markProcessed t img d now).inFlight) ∧
    (∀ (t : Tracker) (img : Img) (conv api : JsResult) (now : Nat),
      isTerminalOutcome (processSingleImage t img conv api now).outcome = true →
      getImageHash img ∉ (processSingleImage t img conv api now).tracker.inFlight) := by
  constructor
  · intro t img d now
    constructor
    · unfold markProcessed clearInFlight
      exact mem_setInsert_self t.processedHashes (getImageHash img)
    · unfold markProcessed clearInFlight
      exact not_mem_setDelete_self _ (getImageHash img)
  · intro t img conv api now hterm
    by_cases h1 : isProcessed t img = true
    · unfold processSingleImage at hterm
      simp [h1, isTerminalOutcome] at hterm
    · by_cases h2 : isInFlight t img = true
      · unfold processSingleImage at hterm
        simp [h1, h2, isTerminalOutcome] at hterm
      · cases conv with
        | err m =>
          have heq : processSingleImage t img (JsResult.err m) api now =
              ⟨clearInFlight (markInFlight t img) img, img, .failed m, false⟩ := by
            unfold processSingleImage
            simp [h1, h2]
          rw [heq]
          exact not_mem_setDelete_self _ _
        | ok base64 =>
          by_cases hs : isWithinSizeLimit base64 5 = true
          · cases api with
            | err m =>
              have heq : processSingleImage t img (JsResult.ok base64) (JsResult.err m) now =
                  ⟨clearInFlight (markInFlight t img) img, img, .failed m, true⟩ := by
                unfold processSingleImage
                simp [h1, h2, hs]
              rw [heq]
              exact not_mem_setDelete_self _ _
            | ok d =>
              have heq : processSingleImage t img (JsResult.ok base64) (JsResult.ok d) now =
                  ⟨markProcessed (markInFlight t img) { img with alt := d, title := d } d now,
                    { img with alt := d, title := d }, .success d, true⟩ := by
                unfold processSingleImage
                simp [h1, h2, hs]
              rw [heq]
              simp only [markProcessed, clearInFlight, getImageHash_write]
              exact not_mem_setDelete_self _ _
          · have hs2 : isWithinSizeLimit base64 5 = false := by simpa using hs
            have heq : processSingleImage t img (JsResult.ok base64) api now =
                ⟨clearInFlight (markInFlight t img) img, img, .tooLarge, false⟩ := by
              unfold processSingleImage
              simp [h1, h2, hs2]
            rw [heq]
            exact not_mem_setDelete_self _ _

/-- Witness for C2 on a concrete failing conversion: the terminal-outcome
hypothesis holds and the identity ends up outside the in-flight set. -/
theorem inFlight_always_compensated_witness :
    getImageHash ⟨0, "u", 100, 100, "", ""⟩ ∉
      (processSingleImage emptyTracker ⟨0, "u", 100, 100, "", ""⟩
        (.err "boom") (.ok "d") 0).tracker.inFlight :=
  inFlight_always_compensated.2 emptyTracker ⟨0, "u", 100, 100, "", ""⟩
    (.err "boom") (.ok "d") 0 (by decide)

/-- Claim C7: an image whose converted payload computes as larger than 5 MB
is never submitted to the queue: `processSingleImage` clears the in-flight
mark and returns, without dispatching, without writing the image, and
without marking it processed. -/
theorem oversize_payload_never_submitted
    (t : Tracker) (img : Img) (b64 : String) (api : JsResult) (now : Nat)
    (hp : isProcessed t img = false) (hf : isInFlight t img = false)
    (hs : isWithinSizeLimit b64 5 = false) :
    processSingleImage t img (.ok b64) api now =
      ⟨clearInFlight (markInFlight t img) img, img, .tooLarge, false⟩ ∧
    (processSingleImage t img (.ok b64) api now).dispatched = false ∧
    getImageHash img ∉ (processSingleImage t img (.ok b64) api now).tracker.inFlight ∧
    (processSingleImage t img (.ok b64) api now).tracker.processedHashes =
      t.processedHashes ∧
    (processSingleImage t img (.ok b64) api now).tracker.processedImages =
      t.processedImages ∧
    (processSingleImage t img (.ok b64) api now).img = img := by
  have heq : processSingleImage t img (.ok b64) api now =
      ⟨clearInFlight (markInFlight t img) img, img, .tooLarge, false⟩ := by
    unfold processSingleImage
    simp [hp, hf, hs]
  refine ⟨heq, ?_, ?_, ?_, ?_, ?_⟩ <;> rw [heq]
  · exact not_mem_setDelete_self _ (getImageHash img)
  · rfl
  · rfl

theorem replicate_a_no_comma (n : Nat) :
    (List.replicate n 'a').findIdx? (fun c => c == ',') = none := by
  induction n with
  | zero => rfl
  | succ k ih => rw [List.replicate_succ, List.findIdx?_cons]; simp [ih]

theorem base64DataLength_replicate_a (n : Nat) :
    base64DataLength (String.mk (List.replicate n 'a')) = n := by
  unfold base64DataLength
  have h : (String.mk (List.replicate n 'a')).toList = List.replicate n 'a' := rfl
  rw [h, replicate_a_no_comma, List.length_replicate]

theorem countEquals_replicate_a (n : Nat) :
    countEquals (String.mk (List.replicate n 'a')) = 0 := by
  unfold countEquals
  have h : (String.mk (List.replicate n 'a')).toList = List.replicate n 'a' := rfl
  rw [h]
  simp [List.filter_replicate]

theorem getBase64Size_replicate_a (n : Nat) :
    getBase64Size (String.mk (List.replicate n 'a')) = (((n * 3 + 3) / 4 : Nat) : Int) := by
  unfold getBase64Size
  rw [base64DataLength_replicate_a, countEquals_replicate_a]
  simp

theorem bigBase64_oversize : isWithinSizeLimit bigBase64 5 = false := by
  unfold isWithinSizeLimit bigBase64
  rw [getBase64Size_replicate_a]
  decide

/-- Witness for C7: the concrete oversize payload is skipped without a
dispatch. -/
theorem oversize_payload_never_submitted_witness :
    (processSingleImage emptyTracker ⟨0, "u", 100, 100, "", ""⟩
      (.ok bigBase64) (.ok "d") 0).dispatched = false :=
  (oversize_payload_never_submitted emptyTracker ⟨0, "u", 100, 100, "", ""⟩
    bigBase64 (.ok "d") 0 (by decide) (by decide) bigBase64_oversize).2.1

/-- Claim C8: for a loaded image (non-empty locator, non-zero dimensions) a
`data:` locator is returned unchanged with no strategy attempted; otherwise
canvas, direct fetch and the background proxy are consulted in that strict
order, the first success is returned, and if all three fail the call ends in
the terminal conversion error. -/
theorem convert_fallback_chain (img : Img) (canvasR fetchR bgR : JsResult)
    (hsrc : img.src ≠ "") (hw : img.naturalWidth ≠ 0) (hh : img.naturalHeight ≠ 0) :
    ("data:".toList.isPrefixOf img.src.toList = true →
      convertImageToBase64 img canvasR fetchR bgR = ⟨.ok img.src, []⟩) ∧
    ("data:".toList.isPrefixOf img.src.toList = false →
      (∀ b, canvasR = .ok b →
        convertImageToBase64 img canvasR fetchR bgR = ⟨.ok b, [.canvasStrat]⟩) ∧
      (∀ m b, canvasR = .err m → fetchR = .ok b →
        convertImageToBase64 img canvasR fetchR bgR = ⟨.ok b, [.canvasStrat, .fetchStrat]⟩) ∧
      (∀ m1 m2 b, canvasR = .err m1 → fetchR = .err m2 → bgR = .ok b →
        convertImageToBase64 img canvasR fetchR bgR =
          ⟨.ok b, [.canvasStrat, .fetchStrat, .backgroundStrat]⟩) ∧
      (∀ m1 m2 m3, canvasR = .err m1 → fetchR = .err m2 → bgR = .err m3 →
        convertImageToBase64 img canvasR fetchR bgR =
          ⟨.err ("Image conversion failed: " ++ m3),
            [.canvasStrat, .fetchStrat, .backgroundStrat]⟩)) := by
  constructor
  · intro hdata
    simp at hdata
    unfold convertImageToBase64
    simp [hsrc, hw, hh, hdata]
  · intro hdata
    simp at hdata
    refine ⟨?_, ?_, ?_, ?_⟩
    · intro b hc
      unfold convertImageToBase64
      simp [hsrc, hw, hh, hdata, hc]
    · intro m b hc hf
      unfold convertImageToBase64
      simp [hsrc, hw, hh, hdata, hc, hf]
    · intro m1 m2 b hc hf hb
      unfold convertImageToBase64
      simp [hsrc, hw, hh, hdata, hc, hf, hb]
    · intro m1 m2 m3 hc hf hb
      unfold convertImageToBase64
      simp [hsrc, hw, hh, hdata, hc, hf, hb]

/-- Witness for C8: a concrete `data:` image is returned unchanged, and a
concrete remote image falls through canvas failure to a fetch success. -/
theorem convert_fallback_chain_witness :
    convertImageToBase64 ⟨0, "data:x", 3, 3, "", ""⟩ (.err "cors") (.ok "b") (.ok "c") =
      ⟨.ok "data:x", []⟩ ∧
    convertImageToBase64 ⟨0, "http://h/i.png", 3, 3, "", ""⟩ (.err "cors") (.ok "b") (.ok "c") =
      ⟨.ok "b", [.canvasStrat, .fetchStrat]⟩ := by
  constructor
  · exact (convert_fallback_chain ⟨0, "data:x", 3, 3, "", ""⟩ (.err "cors") (.ok "b") (.ok "c")
      (by decide) (by decide) (by decide)).1 (by decide)
  · exact ((convert_fallback_chain ⟨0, "http://h/i.png", 3, 3, "", ""⟩
      (.err "cors") (.ok "b") (.ok "c")
      (by decide) (by decide) (by decide)).2 (by decide)).2.1 "cors" "b" rfl rfl

/-- Claim C10: the background message handler is total at its interface:
every message produces a response with a boolean `success` flag; a
recognized successful request answers `success = true`, while an unknown
type, a CONVERT_IMAGE without a url, or a failing fetch each answer
`success = false` with an error message, and no exception escapes. -/
theorem background_handler_total (msg : BgMsg) (fetchRes : JsResult) :
    ((handleMessage msg fetchRes).success = true ∨
      ∃ e, (handleMessage msg fetchRes).success = false ∧
        (handleMessage msg fetchRes).error = some e) ∧
    (msg.type ≠ "CONVERT_IMAGE" → msg.type ≠ "GET_STATS" →
      handleMessage msg fetchRes =
        ⟨false, none, some ("Unknown message type: " ++ msg.type), false⟩) ∧
    (msg.type = "CONVERT_IMAGE" → jsFalsyUrl msg.url = true →
      handleMessage msg fetchRes = ⟨false, none, some "No URL provided", false⟩) ∧
    (msg.type = "CONVERT_IMAGE" → jsFalsyUrl msg.url = false →
      (∀ e, fetchRes = .err e →
        handleMessage msg fetchRes = ⟨false, none, some e, false⟩) ∧
      (∀ b, fetchRes = .ok b →
        handleMessage msg fetchRes = ⟨true, some b, none, false⟩)) ∧
    (msg.type = "GET_STATS" → handleMessage msg fetchRes = ⟨true, none, none, true⟩) := by
  refine ⟨?_, ?_, ?_, ?_, ?_⟩
  · unfold handleMessage
    by_cases h1 : msg.type = "CONVERT_IMAGE"
    · by_cases h2 : jsFalsyUrl msg.url = true
      · simp [h1, h2]
      · cases fetchRes with
        | ok b => simp [h1, h2]
        | err e => simp [h1, h2]
    · by_cases h3 : msg.type = "GET_STATS"
      · simp [h1, h3]
      · simp [h1, h3]
  · intro h1 h3
    unfold handleMessage
    simp [h1, h3]
  · intro h1 h2
    unfold handleMessage
    simp [h1, h2]
  · intro h1 h2
    constructor
    · intro e he
      unfold handleMessage
      simp [h1, h2, he]
    · intro b hb
      unfold handleMessage
      simp [h1, h2, hb]
  · intro h3
    unfold handleMessage
    by_cases h1 : msg.type = "CONVERT_IMAGE"
    · rw [h1] at h3
      simp at h3
    · simp [h1, h3]

/-- Witness for C10: a CONVERT_IMAGE request without a url answers a
`success = false` response with the source's error message. -/
theorem background_handler_total_witness :
    handleMessage ⟨"CONVERT_IMAGE", none⟩ (.ok "b") =
      ⟨false, none, some "No URL provided", false⟩ :=
  (background_handler_total ⟨"CONVERT_IMAGE", none⟩ (.ok "b")).2.2.1 rfl rfl

/-- Advancing the retry loop over a block of retryable failures: each one
consumes its attempt, appends its `2^(attempt-1)` second backoff, and moves
on to the next attempt. -/
theorem sendGo_advance (try_ : Nat → JsResult) (mr : Nat) :
    ∀ (steps a : Nat) (lastErr : String) (acc : List Nat),
      1 ≤ a → a + steps ≤ mr →
      (∀ j, a ≤ j → j < a + steps → ∃ m, try_ j = .err m ∧ isNonRetryableMsg m = false) →
      ∃ le, sendGo try_ mr (mr + 1 - a) a lastErr acc =
        sendGo try_ mr (mr + 1 - (a + steps)) (a + steps) le
          (acc ++ (List.range steps).map (fun i => 2 ^ (a - 1 + i) * 1000)) := by
  intro steps
  induction steps with
  | zero =>
    intro a lastErr acc _ _ _
    exact ⟨lastErr, by simp⟩
  | succ n ih =>
    intro a lastErr acc ha1 hbound hprior
    have halt : a < mr := by omega
    obtain ⟨m, hm, hnr⟩ := hprior a (le_refl a) (by omega)
    have hfuel : mr + 1 - a = (mr - a) + 1 := by omega
    have hstep : sendGo try_ mr (mr + 1 - a) a lastErr acc =
        sendGo try_ mr (mr - a) (a + 1) m (acc ++ [2 ^ (a - 1) * 1000]) := by
      rw [hfuel]
      simp only [sendGo]
      rw [hm]
      simp [hnr, halt]
    have hfuel2 : mr - a = mr + 1 - (a + 1) := by omega
    rw [hstep, hfuel2]
    obtain ⟨le, hrest⟩ := ih (a + 1) m (acc ++ [2 ^ (a - 1) * 1000]) (by omega) (by omega)
      (by
        intro j hj1 hj2
        exact hprior j (by omega) (by omega))
    refine ⟨le, ?_⟩
    rw [hrest]
    have harr : a + 1 + n = a + (n + 1) := by omega
    have hfun : (fun i : Nat => 2 ^ (a + 1 - 1 + i) * 1000) =
        (fun i : Nat => 2 ^ (a - 1 + (i + 1)) * 1000) := by
      funext i
      have h : a + 1 - 1 + i = a - 1 + (i + 1) := by omega
      rw [h]
    have hlist : (acc ++ [2 ^ (a - 1) * 1000]) ++
        (List.range n).map (fun i => 2 ^ (a + 1 - 1 + i) * 1000) =
        acc ++ (List.range (n + 1)).map (fun i => 2 ^ (a - 1 + i) * 1000) := by
      rw [hfun, List.range_succ_eq_map, List.append_assoc]
      simp [Function.comp_def]
    rw [harr, hlist]

/-- Claim C4: an attempt whose error is classified non-retryable (message
containing "400" or "Invalid") makes `sendImageToAPI` fail immediately with
that very error: the loop consumed exactly that attempt and only the
backoffs of the earlier retryable attempts, none after the classification. -/
theorem api_nonretryable_short_circuit (try_ : Nat → JsResult) (k : Nat) (msg : String)
    (hk1 : 1 ≤ k) (hk3 : k ≤ 3)
    (hprior : ∀ j, 1 ≤ j → j < k → ∃ m, try_ j = .err m ∧ isNonRetryableMsg m = false)
    (hk : try_ k = .err msg) (hnr : isNonRetryableMsg msg = true) :
    sendImageToAPI try_ 3 =
      ⟨.failure msg, k, (List.range (k - 1)).map (fun i => 2 ^ i * 1000)⟩ := by
  obtain ⟨le, heq⟩ := sendGo_advance try_ 3 (k - 1) 1 "" [] (le_refl 1) (by omega)
    (by
      intro j hj1 hj2
      exact hprior j hj1 (by omega))
  have hks : 1 + (k - 1) = k := by omega
  rw [hks] at heq
  have hfuel : 3 + 1 - k = (3 - k) + 1 := by omega
  unfold sendImageToAPI
  have h31 : 3 + 1 - 1 = 3 := by omega
  rw [← h31, heq, hfuel]
  simp only [sendGo]
  rw [hk]
  simp only [hnr, if_true]
  have : (fun i => 2 ^ (1 - 1 + i) * 1000) = (fun i : Nat => 2 ^ i * 1000) := by
    funext i
    simp
  rw [this]
  simp

/-- Witness for C4: attempt 1 times out (retryable), attempt 2 returns a
400-class error; the call fails at once with that error after the single
1000 ms backoff. -/
theorem api_nonretryable_short_circuit_witness :
    sendImageToAPI
      (fun j => if j = 1 then JsResult.err "Request timeout"
        else JsResult.err "API returned 400: Bad Request") 3 =
      ⟨.failure "API returned 400: Bad Request", 2,
        (List.range (2 - 1)).map (fun i => 2 ^ i * 1000)⟩ :=
  api_nonretryable_short_circuit
    (fun j => if j = 1 then JsResult.err "Request timeout"
      else JsResult.err "API returned 400: Bad Request") 2
    "API returned 400: Bad Request" (by omega) (by omega)
    (by
      intro j hj1 hj2
      have hj : j = 1 := by omega
      subst hj
      exact ⟨"Request timeout", rfl, by decide⟩)
    (by decide) (by decide)

/-- Claim C5: with retryable failures on the first k-1 attempts, a success
on attempt k (k ≤ 3) returns that description after exponential backoffs of
`2^(attempt-1)` seconds (1000 ms, then 2000 ms); and three retryable
failures exhaust the loop and raise the terminal failure embedding the last
error's message. -/
theorem api_retry_backoff_policy (try_ : Nat → JsResult) :
    (∀ k d, 1 ≤ k → k ≤ 3 →
      (∀ j, 1 ≤ j → j < k → ∃ m, try_ j = .err m ∧ isNonRetryableMsg m = false) →
      try_ k = .ok d →
      sendImageToAPI try_ 3 =
        ⟨.success d, k, (List.range (k - 1)).map (fun i => 2 ^ i * 1000)⟩) ∧
    (∀ m3, (∀ j, 1 ≤ j → j ≤ 3 → ∃ m, try_ j = .err m ∧ isNonRetryableMsg m = false) →
      try_ 3 = .err m3 →
      sendImageToAPI try_ 3 =
        ⟨.failure ("API failed after " ++ toString (3 : Nat) ++ " attempts: " ++ m3),
          3, [1000, 2000]⟩) := by
  constructor
  · intro k d hk1 hk3 hprior hk
    obtain ⟨le, heq⟩ := sendGo_advance try_ 3 (k - 1) 1 "" [] (le_refl 1) (by omega)
      (by
        intro j hj1 hj2
        exact hprior j hj1 (by omega))
    have hks : 1 + (k - 1) = k := by omega
    rw [hks] at heq
    have hfuel : 3 + 1 - k = (3 - k) + 1 := by omega
    unfold sendImageToAPI
    have h31 : 3 + 1 - 1 = 3 := by omega
    rw [← h31, heq, hfuel]
    simp only [sendGo]
    rw [hk]
    have : (fun i => 2 ^ (1 - 1 + i) * 1000) = (fun i : Nat => 2 ^ i * 1000) := by
      funext i
      simp
    rw [this]
    simp
  · intro m3 hall h3
    obtain ⟨le, heq⟩ := sendGo_advance try_ 3 2 1 "" [] (le_refl 1) (by omega)
      (by
        intro j hj1 hj2
        exact hall j hj1 (by omega))
    unfold sendImageToAPI
    have h31 : 3 + 1 - 1 = 3 := by omega
    rw [← h31, heq]
    have hnr3 : isNonRetryableMsg m3 = false := by
      obtain ⟨m, hm, hnr⟩ := hall 3 (by omega) (le_refl 3)
      rw [h3] at hm
      cases hm
      exact hnr
    have hfuel : 3 + 1 - (1 + 2) = 0 + 1 := by omega
    rw [hfuel]
    simp only [sendGo]
    rw [h3]
    simp [hnr3, List.range_succ, List.range_zero]

/-- Witness for C5: attempt 1 times out, attempt 2 succeeds; the call
returns the attempt-2 description after one 1000 ms backoff. -/
theorem api_retry_backoff_policy_witness :
    sendImageToAPI
      (fun j => if j = 1 then JsResult.err "Request timeout" else JsResult.ok "a cat") 3 =
      ⟨.success "a cat", 2, (List.range (2 - 1)).map (fun i => 2 ^ i * 1000)⟩ :=
  (api_retry_backoff_policy
    (fun j => if j = 1 then JsResult.err "Request timeout" else JsResult.ok "a cat")).1
    2 "a cat" (by omega) (by omega)
    (by
      intro j hj1 hj2
      have hj : j = 1 := by omega
      subst hj
      exact ⟨"Request timeout", rfl, by decide⟩)
    (by decide)

/-- Behaviour of the synchronous dispatch prefix of `process()`: it moves
the front of the queue (when anything moves at all) to the running set,
touches no counters and no timers, and emits only dispatch events carrying
the given time and trigger. -/
theorem tryDispatch_spec (s : QState) (t : Nat) (trig : Trigger) :
    dispatchedIds (tryDispatch s t trig).2 ++ (tryDispatch s t trig).1.queue = s.queue ∧
    addedIds (tryDispatch s t trig).2 = [] ∧
    completionOks (tryDispatch s t trig).2 = [] ∧
    (tryDispatch s t trig).1.stats = s.stats ∧
    (s.active = s.running.length →
      (tryDispatch s t trig).1.active = (tryDispatch s t trig).1.running.length) ∧
    (tryDispatch s t trig).1.delayMs = s.delayMs ∧
    (tryDispatch s t trig).1.concurrency = s.concurrency ∧
    (tryDispatch s t trig).1.sleeping = s.sleeping ∧
    (tryDispatch s t trig).1.running.length =
      s.running.length + (dispatchedIds (tryDispatch s t trig).2).length ∧
    (∀ e ∈ (tryDispatch s t trig).2, ∃ tid, e = .dispatched tid t trig) := by
  unfold tryDispatch
  by_cases hac : s.active < s.concurrency
  · simp only [hac, if_true]
    cases hq : s.queue with
    | nil =>
      simp [hq, dispatchedIds, addedIds, completionOks]
    | cons hd tl =>
      refine ⟨?_, ?_, ?_, rfl, ?_, rfl, rfl, rfl, ?_, ?_⟩
      · simp [dispatchedIds]
      · simp [addedIds]
      · simp [completionOks]
      · intro ha
        simp [ha]
      · simp [dispatchedIds]
      · intro e he
        simp at he
        exact ⟨hd, he⟩
  · simp only [hac, if_false]
    simp [dispatchedIds, addedIds, completionOks]

/-! Projection lemmas for the event-log selectors. -/

theorem addedIds_nil : addedIds [] = [] := rfl

theorem addedIds_cons_added (tid t : Nat) (l : List QEvent) :
    addedIds (.added tid t :: l) = tid :: addedIds l := rfl

theorem addedIds_cons_dispatched (tid t : Nat) (trig : Trigger) (l : List QEvent) :
    addedIds (.dispatched tid t trig :: l) = addedIds l := rfl

theorem addedIds_cons_completed (tid : Nat) (ok : Bool) (t : Nat) (l : List QEvent) :
    addedIds (.completed tid ok t :: l) = addedIds l := rfl

theorem addedIds_cons_paced (tc due : Nat) (l : List QEvent) :
    addedIds (.paced tc due :: l) = addedIds l := rfl

theorem addedIds_append (l1 l2 : List QEvent) :
    addedIds (l1 ++ l2) = addedIds l1 ++ addedIds l2 := by
  simp [addedIds, List.filterMap_append]

theorem dispatchedIds_nil : dispatchedIds [] = [] := rfl

theorem dispatchedIds_cons_added (tid t : Nat) (l : List QEvent) :
    dispatchedIds (.added tid t :: l) = dispatchedIds l := rfl

theorem dispatchedIds_cons_dispatched (tid t : Nat) (trig : Trigger) (l : List QEvent) :
    dispatchedIds (.dispatched tid t trig :: l) = tid :: dispatchedIds l := rfl

theorem dispatchedIds_cons_completed (tid : Nat) (ok : Bool) (t : Nat) (l : List QEvent) :
    dispatchedIds (.completed tid ok t :: l) = dispatchedIds l := rfl

theorem dispatchedIds_cons_paced (tc due : Nat) (l : List QEvent) :
    dispatchedIds (.paced tc due :: l) = dispatchedIds l := rfl

theorem dispatchedIds_append (l1 l2 : List QEvent) :
    dispatchedIds (l1 ++ l2) = dispatchedIds l1 ++ dispatchedIds l2 := by
  simp [dispatchedIds, List.filterMap_append]

theorem completionOks_nil : completionOks [] = [] := rfl

theorem completionOks_cons_added (tid t : Nat) (l : List QEvent) :
    completionOks (.added tid t :: l) = completionOks l := rfl

theorem completionOks_cons_dispatched (tid t : Nat) (trig : Trigger) (l : List QEvent) :
    completionOks (.dispatched tid t trig :: l) = completionOks l := rfl

theorem completionOks_cons_completed (tid : Nat) (ok : Bool) (t : Nat) (l : List QEvent) :
    completionOks (.completed tid ok t :: l) = ok :: completionOks l := rfl

theorem completionOks_cons_paced (tc due : Nat) (l : List QEvent) :
    completionOks (.paced tc due :: l) = completionOks l := rfl

theorem completionOks_append (l1 l2 : List QEvent) :
    completionOks (l1 ++ l2) = completionOks l1 ++ completionOks l2 := by
  simp [completionOks, List.filterMap_append]

/-- Per-step bookkeeping of the queue transition system: the dispatch log
plus the remaining queue extends by exactly the new submissions, the
counters track submissions and settlements, `active` stays in step with the
running set, the configuration is constant, and the running set shrinks by
settlements and grows by dispatch starts. -/
theorem queueStep_accounting (s : QState) (c : QCmd) (s1 : QState) (evs : List QEvent)
    (h : queueStep s c = some (s1, evs)) :
    dispatchedIds evs ++ s1.queue = s.queue ++ addedIds evs ∧
    s1.stats.total = s.stats.total + (addedIds evs).length ∧
    s1.stats.success = s.stats.success + (completionOks evs).count true ∧
    s1.stats.failed = s.stats.failed + (completionOks evs).count false ∧
    (s.active = s.running.length → s1.active = s1.running.length) ∧
    s1.delayMs = s.delayMs ∧
    s1.concurrency = s.concurrency ∧
    s1.running.length + (completionOks evs).length =
      s.running.length + (dispatchedIds evs).length := by
  cases c with
  | add tid t =>
    simp only [queueStep] at h
    split at h
    · exact absurd h (by simp)
    · simp only [Option.some.injEq, Prod.mk.injEq] at h
      obtain ⟨hs1, hevs⟩ := h
      subst hs1
      subst hevs
      obtain ⟨hd1, hd2, hd3, hd4, hd5, hd6, hd7, hd8, hd9, hd10⟩ := tryDispatch_spec
        { s with
          queue := s.queue ++ [tid],
          stats := { s.stats with total := s.stats.total + 1 },
          now := t } t .fromAdd
      dsimp only at hd1 hd2 hd3 hd4 hd5 hd6 hd7 hd8 hd9
      refine ⟨?_, ?_, ?_, ?_, ?_, hd6, hd7, ?_⟩
      · rw [dispatchedIds_cons_added, addedIds_cons_added, hd2]
        exact hd1
      · rw [hd4, addedIds_cons_added, hd2]
        rfl
      · rw [hd4, completionOks_cons_added, hd3]
        rfl
      · rw [hd4, completionOks_cons_added, hd3]
        rfl
      · intro ha
        exact hd5 ha
      · rw [completionOks_cons_added, hd3, dispatchedIds_cons_added, hd9]
        simp
  | complete tid ok t =>
    simp only [queueStep] at h
    split at h
    · exact absurd h (by simp)
    · split at h
      · rename_i hmem
        have hlen : (s.running.erase tid).length = s.running.length - 1 :=
          List.length_erase_of_mem hmem
        have hpos : 0 < s.running.length :=
          List.length_pos.mpr (List.ne_nil_of_mem hmem)
        split at h
        all_goals simp only [Option.some.injEq, Prod.mk.injEq] at h
        all_goals obtain ⟨hs1, hevs⟩ := h
        all_goals subst hs1
        all_goals subst hevs
        all_goals cases ok
        all_goals refine ⟨?_, ?_, ?_, ?_, ?_, rfl, rfl, ?_⟩
        all_goals try intro ha
        all_goals simp [dispatchedIds_cons_completed, dispatchedIds_cons_paced, dispatchedIds_nil,
          addedIds_cons_completed, addedIds_cons_paced, addedIds_nil,
          completionOks_cons_completed, completionOks_cons_paced, completionOks_nil,
          List.count_cons, hlen]
        all_goals omega
      · exact absurd h (by simp)
  | wake i t =>
    simp only [queueStep] at h
    split at h
    · exact absurd h (by simp)
    · split at h
      · exact absurd h (by simp)
      · rename_i c hc
        split at h
        · exact absurd h (by simp)
        · simp only [Option.some.injEq, Prod.mk.injEq] at h
          obtain ⟨hs1, hevs⟩ := h
          obtain ⟨hd1, hd2, hd3, hd4, hd5, hd6, hd7, hd8, hd9, hd10⟩ := tryDispatch_spec
            { s with sleeping := s.sleeping.eraseIdx i, now := t } t (.fromWake c.completedAt)
          dsimp only at hd1 hd2 hd3 hd4 hd5 hd6 hd7 hd8 hd9
          subst hs1
          subst hevs
          refine ⟨?_, ?_, ?_, ?_, ?_, hd6, hd7, ?_⟩
          · rw [hd2]
            simpa using hd1
          · rw [hd4, hd2]
            rfl
          · rw [hd4, hd3]
            rfl
          · rw [hd4, hd3]
            rfl
          · intro ha
            exact hd5 ha
          · rw [hd3, hd9]
            simp

/-- Run-level bookkeeping, by induction over the command list. -/
theorem queueRun_accounting : ∀ (cmds : List QCmd) (s s2 : QState) (evs : List QEvent),
    queueRun s cmds = some (s2, evs) →
    dispatchedIds evs ++ s2.queue = s.queue ++ addedIds evs ∧
    s2.stats.total = s.stats.total + (addedIds evs).length ∧
    s2.stats.success = s.stats.success + (completionOks evs).count true ∧
    s2.stats.failed = s.stats.failed + (completionOks evs).count false ∧
    (s.active = s.running.length → s2.active = s2.running.length) ∧
    s2.running.length + (completionOks evs).length =
      s.running.length + (dispatchedIds evs).length := by
  intro cmds
  induction cmds with
  | nil =>
    intro s s2 evs h
    simp only [queueRun, Option.some.injEq, Prod.mk.injEq] at h
    obtain ⟨hs, hevs⟩ := h
    subst hs
    subst hevs
    simp [addedIds_nil, dispatchedIds_nil, completionOks_nil]
  | cons c cs ih =>
    intro s s2 evs h
    cases hstep : queueStep s c with
    | none => simp [queueRun, hstep] at h
    | some p =>
      obtain ⟨s1, evs1⟩ := p
      cases hrun : queueRun s1 cs with
      | none => simp [queueRun, hstep, hrun] at h
      | some q =>
        obtain ⟨s2x, evs2⟩ := q
        simp only [queueRun, hstep, hrun, Option.some.injEq, Prod.mk.injEq] at h
        obtain ⟨hs, hevs⟩ := h
        subst hs
        subst hevs
        obtain ⟨a1, a2, a3, a4, a5, a6, a7, a8⟩ := queueStep_accounting s c s1 evs1 hstep
        obtain ⟨b1, b2, b3, b4, b5, b6⟩ := ih s1 s2x evs2 hrun
        refine ⟨?_, ?_, ?_, ?_, ?_, ?_⟩
        · rw [dispatchedIds_append, addedIds_append, List.append_assoc, b1,
            ← List.append_assoc, a1, List.append_assoc]
        · rw [addedIds_append, List.length_append, b2, a2]
          omega
        · rw [completionOks_append, List.count_append, b3, a3]
          omega
        · rw [completionOks_append, List.count_append, b4, a4]
          omega
        · intro ha
          exact b5 (a5 ha)
        · rw [completionOks_append, dispatchedIds_append, List.length_append,
            List.length_append]
          omega

/-- Claim C3: FIFO dispatch start.  In every run of a queue with
concurrency 1, the sequence of task ids in dispatch-start order is exactly
the submission-order sequence truncated to the still-pending queue: earlier
submissions begin execution (strictly earlier in the event log) than later
ones, however the tasks complete. -/
theorem queue_fifo_dispatch_start (delayMs : Nat) (cmds : List QCmd)
    (s2 : QState) (evs : List QEvent)
    (h : queueRun (mkQueue 1 delayMs) cmds = some (s2, evs)) :
    addedIds evs = dispatchedIds evs ++ s2.queue := by
  have h1 := (queueRun_accounting cmds (mkQueue 1 delayMs) s2 evs h).1
  simpa [mkQueue] using h1.symm

/-- Witness for C3: three submissions with one dispatch slot; the single
dispatch start is the first submission, the queue retains the rest in
order. -/
theorem queue_fifo_dispatch_start_witness :
    addedIds [QEvent.added 1 0, QEvent.dispatched 1 0 .fromAdd,
      QEvent.added 2 1, QEvent.added 3 2] =
    dispatchedIds [QEvent.added 1 0, QEvent.dispatched 1 0 .fromAdd,
      QEvent.added 2 1, QEvent.added 3 2] ++ [2, 3] := by
  have h := queue_fifo_dispatch_start 500 [.add 1 0, .add 2 1, .add 3 2]
    ⟨1, 500, [2, 3], 1, ⟨3, 0, 0⟩, [1], [], 2⟩
    [QEvent.added 1 0, QEvent.dispatched 1 0 .fromAdd, QEvent.added 2 1, QEvent.added 3 2]
    (by decide)
  simpa using h

theorem count_true_add_count_false (l : List Bool) :
    l.count true + l.count false = l.length := by
  induction l with
  | nil => rfl
  | cons b bs ih =>
    cases b <;> simp [List.count_cons] <;> omega

/-- Claim C9: statistics consistency.  After any run in which every
submitted task has settled (nothing queued, nothing running), with N
submissions, S successful settlements and F failed settlements,
`getStats()` reports `total = N, success = S, failed = F, queued = 0,
active = 0` — and necessarily S + F = N. -/
theorem queue_stats_consistent (concurrency delayMs N S F : Nat) (cmds : List QCmd)
    (s2 : QState) (evs : List QEvent)
    (h : queueRun (mkQueue concurrency delayMs) cmds = some (s2, evs))
    (hqueue : s2.queue = []) (hrunning : s2.running = [])
    (hN : (addedIds evs).length = N) (hS : (completionOks evs).count true = S)
    (hF : (completionOks evs).count false = F) :
    getStats s2 = ⟨N, S, F, 0, 0⟩ ∧ S + F = N := by
  obtain ⟨b1, b2, b3, b4, b5, b6⟩ :=
    queueRun_accounting cmds (mkQueue concurrency delayMs) s2 evs h
  simp only [mkQueue] at b1 b2 b3 b4 b6
  have hact : s2.active = 0 := by
    have hx := b5 (by simp [mkQueue])
    rw [hx, hrunning]
    rfl
  have hdisp : dispatchedIds evs = addedIds evs := by
    rw [hqueue] at b1
    simpa using b1
  have hcnt := count_true_add_count_false (completionOks evs)
  have hlen : (completionOks evs).length = (dispatchedIds evs).length := by
    rw [hrunning] at b6
    simpa using b6
  constructor
  · unfold getStats
    rw [hqueue, hact, b2, b3, b4, hN, hS, hF]
    simp
  · have hdl : (dispatchedIds evs).length = (addedIds evs).length := by
      rw [hdisp]
    omega

/-- Witness for C9: two submissions, one success and one failure, fully
drained; the statistics view reads total 2, success 1, failed 1, nothing
queued or active. -/
theorem queue_stats_consistent_witness :
    getStats ⟨1, 500, [], 0, ⟨2, 1, 1⟩, [], [], 600⟩ = ⟨2, 1, 1, 0, 0⟩ ∧ 1 + 1 = 2 :=
  queue_stats_consistent 1 500 2 1 1
    [.add 1 0, .add 2 0, .complete 1 true 50, .wake 0 550, .complete 2 false 600]
    ⟨1, 500, [], 0, ⟨2, 1, 1⟩, [], [], 600⟩
    [QEvent.added 1 0, QEvent.dispatched 1 0 .fromAdd, QEvent.added 2 0,
      QEvent.completed 1 true 50, QEvent.paced 50 550,
      QEvent.dispatched 2 550 (.fromWake 50), QEvent.completed 2 false 600]
    (by decide) rfl rfl (by decide) (by decide) (by decide)

/-- Counterexample to claim C6.  With concurrency 1: task 1 dispatches at
time 0, task 2 queues.  Task 1 settles at time 100 with task 2 still
queued, so its `finally` block starts the 500 ms pacing sleep (due 600).
But an `add(task3)` arriving at time 100 runs `process()` synchronously,
finds a free slot and non-empty queue, and dispatches task 2 at time 100 —
zero delay after the settlement, 500 ms before the pacing timer fires. -/
theorem queue_pacing_counterexample : ¬ pacingClaim := by
  intro h
  unfold pacingClaim at h
  have hx := h 1 [.add 1 0, .add 2 0, .complete 1 true 100, .add 3 100]
    ⟨1, 500, [3], 1, ⟨3, 1, 0⟩, [2], [⟨100, 600⟩], 100⟩
    [QEvent.added 1 0, QEvent.dispatched 1 0 .fromAdd, QEvent.added 2 0,
      QEvent.completed 1 true 100, QEvent.paced 100 600, QEvent.added 3 100,
      QEvent.dispatched 2 100 .fromAdd]
    (by decide) 4 6 100 600 2 100 .fromAdd (by omega) (by decide) (by decide)
  omega

/-- Step preservation of timer consistency, and soundness of the emitted
events: a timer-triggered dispatch never precedes the settlement's pacing
deadline, and every pacing deadline is `delayMs` after its settlement. -/
theorem queueStep_wake_pacing (s : QState) (c : QCmd) (s1 : QState) (evs : List QEvent)
    (hinv : sleepTimersConsistent s) (h : queueStep s c = some (s1, evs)) :
    sleepTimersConsistent s1 ∧ s1.delayMs = s.delayMs ∧
    (∀ tid t tc, QEvent.dispatched tid t (.fromWake tc) ∈ evs → tc + s.delayMs ≤ t) ∧
    (∀ tc due, QEvent.paced tc due ∈ evs → due = tc + s.delayMs) := by
  cases c with
  | add tid t =>
    simp only [queueStep] at h
    split at h
    · exact absurd h (by simp)
    · simp only [Option.some.injEq, Prod.mk.injEq] at h
      obtain ⟨hs1, hevs⟩ := h
      obtain ⟨_, _, _, _, _, hd6, _, hd8, _, hd10⟩ := tryDispatch_spec
        { s with
          queue := s.queue ++ [tid],
          stats := { s.stats with total := s.stats.total + 1 },
          now := t } t .fromAdd
      dsimp only at hd6 hd8 hd10
      subst hs1
      subst hevs
      refine ⟨?_, hd6, ?_, ?_⟩
      · intro c2 hc2
        rw [hd8] at hc2
        rw [hd6]
        exact hinv c2 hc2
      · intro tid2 t2 tc hmem
        simp only [List.mem_cons] at hmem
        rcases hmem with heq | hmem
        · simp at heq
        · obtain ⟨tid3, heq⟩ := hd10 _ hmem
          simp at heq
      · intro tc due hmem
        simp only [List.mem_cons] at hmem
        rcases hmem with heq | hmem
        · simp at heq
        · obtain ⟨tid3, heq⟩ := hd10 _ hmem
          simp at heq
  | complete tid ok t =>
    simp only [queueStep] at h
    split at h
    · exact absurd h (by simp)
    · split at h
      · split at h
        all_goals simp only [Option.some.injEq, Prod.mk.injEq] at h
        all_goals obtain ⟨hs1, hevs⟩ := h
        all_goals subst hs1
        all_goals subst hevs
        · refine ⟨?_, rfl, ?_, ?_⟩
          · intro c2 hc2
            dsimp only at hc2 ⊢
            exact hinv c2 hc2
          · intro tid2 t2 tc hmem
            simp at hmem
          · intro tc due hmem
            simp at hmem
        · refine ⟨?_, rfl, ?_, ?_⟩
          · intro c2 hc2
            dsimp only at hc2 ⊢
            rw [List.mem_append] at hc2
            rcases hc2 with hc2 | hc2
            · exact hinv c2 hc2
            · simp only [List.mem_singleton] at hc2
              subst hc2
              rfl
          · intro tid2 t2 tc hmem
            simp at hmem
          · intro tc due hmem
            simp only [List.mem_cons, List.mem_singleton] at hmem
            rcases hmem with heq | heq
            · simp at heq
            · rcases heq with heq | heq
              · simp only [QEvent.paced.injEq] at heq
                obtain ⟨h1, h2⟩ := heq
                subst h1
                subst h2
                rfl
              · simp at heq
      · exact absurd h (by simp)
  | wake i t =>
    simp only [queueStep] at h
    split at h
    · exact absurd h (by simp)
    · split at h
      · exact absurd h (by simp)
      · rename_i c hc
        split at h
        · exact absurd h (by simp)
        · rename_i hdue
          simp only [Option.some.injEq, Prod.mk.injEq] at h
          obtain ⟨hs1, hevs⟩ := h
          obtain ⟨_, _, _, _, _, hd6, _, hd8, _, hd10⟩ := tryDispatch_spec
            { s with sleeping := s.sleeping.eraseIdx i, now := t } t (.fromWake c.completedAt)
          dsimp only at hd6 hd8 hd10
          subst hs1
          subst hevs
          have hcmem : c ∈ s.sleeping := by
            obtain ⟨hlt, hget⟩ := List.getElem?_eq_some.mp hc
            exact hget ▸ List.getElem_mem hlt
          have hcw : c.wakeTime = c.completedAt + s.delayMs := hinv c hcmem
          have hle : c.wakeTime ≤ t := by omega
          refine ⟨?_, hd6, ?_, ?_⟩
          · intro c2 hc2
            rw [hd8] at hc2
            rw [hd6]
            exact hinv c2 (List.Sublist.subset (List.eraseIdx_sublist s.sleeping i) hc2)
          · intro tid2 t2 tc hmem
            obtain ⟨tid3, heq⟩ := hd10 _ hmem
            simp only [QEvent.dispatched.injEq, Trigger.fromWake.injEq] at heq
            obtain ⟨h1, h2, h3⟩ := heq
            subst h2
            subst h3
            omega
          · intro tc due hmem
            obtain ⟨tid3, heq⟩ := hd10 _ hmem
            simp at heq

/-- Run-level version of the completion-path pacing guarantee. -/
theorem queueRun_wake_pacing : ∀ (cmds : List QCmd) (s s2 : QState) (evs : List QEvent),
    sleepTimersConsistent s → queueRun s cmds = some (s2, evs) →
    (∀ tid t tc, QEvent.dispatched tid t (.fromWake tc) ∈ evs → tc + s.delayMs ≤ t) ∧
    (∀ tc due, QEvent.paced tc due ∈ evs → due = tc + s.delayMs) := by
  intro cmds
  induction cmds with
  | nil =>
    intro s s2 evs hinv h
    simp only [queueRun, Option.some.injEq, Prod.mk.injEq] at h
    obtain ⟨hs, hevs⟩ := h
    subst hs
    subst hevs
    simp
  | cons c cs ih =>
    intro s s2 evs hinv h
    cases hstep : queueStep s c with
    | none => simp [queueRun, hstep] at h
    | some p =>
      obtain ⟨s1, evs1⟩ := p
      cases hrun : queueRun s1 cs with
      | none => simp [queueRun, hstep, hrun] at h
      | some q =>
        obtain ⟨s2x, evs2⟩ := q
        simp only [queueRun, hstep, hrun, Option.some.injEq, Prod.mk.injEq] at h
        obtain ⟨hs, hevs⟩ := h
        subst hs
        subst hevs
        obtain ⟨i1, i2, i3, i4⟩ := queueStep_wake_pacing s c s1 evs1 hinv hstep
        obtain ⟨j1, j2⟩ := ih s1 s2x evs2 i1 hrun
        rw [i2] at j1 j2
        constructor
        · intro tid t tc hmem
          rw [List.mem_append] at hmem
          rcases hmem with hm | hm
          · exact i3 tid t tc hm
          · exact j1 tid t tc hm
        · intro tc due hmem
          rw [List.mem_append] at hmem
          rcases hmem with hm | hm
          · exact i4 tc due hm
          · exact j2 tc due hm

/-- Claim C6 amended: completion-path pacing.  In every run, each pacing
timer started by a settlement at time tc (with work still queued) is due
exactly `delayMs` later, and every dispatch performed by such a timer's
`process()` run starts no earlier than tc + delayMs.  A dispatch triggered
by a concurrent `add()` during the pacing window is exempt — it may start
queued work with zero delay after the settlement
(`queue_pacing_counterexample`). -/
theorem queue_completion_pacing (concurrency delayMs : Nat) (cmds : List QCmd)
    (s2 : QState) (evs : List QEvent)
    (h : queueRun (mkQueue concurrency delayMs) cmds = some (s2, evs)) :
    (∀ tid t tc, QEvent.dispatched tid t (.fromWake tc) ∈ evs → tc + delayMs ≤ t) ∧
    (∀ tc due, QEvent.paced tc due ∈ evs → due = tc + delayMs) := by
  have hx := queueRun_wake_pacing cmds (mkQueue concurrency delayMs) s2 evs
    (by intro c hc; simp [mkQueue] at hc) h
  simpa [mkQueue] using hx

/-- Witness for the amended C6: a full run in which task 1 settles at time
10, the pacing timer is due at 510, and the timer-triggered dispatch of
task 2 indeed starts at 510 = 10 + 500. -/
theorem queue_completion_pacing_witness : (10 : Nat) + 500 ≤ 510 ∧ (510 : Nat) = 10 + 500 := by
  have h := queue_completion_pacing 1 500 [.add 1 0, .add 2 0, .complete 1 true 10, .wake 0 510]
    ⟨1, 500, [], 1, ⟨2, 1, 0⟩, [2], [], 510⟩
    [QEvent.added 1 0, QEvent.dispatched 1 0 .fromAdd, QEvent.added 2 0,
      QEvent.completed 1 true 10, QEvent.paced 10 510,
      QEvent.dispatched 2 510 (.fromWake 10)]
    (by decide)
  exact ⟨h.1 2 510 10 (by decide), h.2 10 510 (by decide)⟩
